import Mathlib

/-!
# Verification of the InkyPi image pipeline (`src/utils/image_utils.py`)

Shallow embedding of the rendering / image-normalisation pipeline.

Modelling conventions used throughout:
* A PIL image is a `PilImage`: a colour mode, a width, a height and a total
  pixel function `px : Nat → Nat → List Nat` giving the list of channel
  bytes at column `x`, row `y`.  Out-of-range accesses are irrelevant; image
  equality is the extensional relation `PilImage.Eqv` (same mode, same size,
  same pixels inside the frame).
* Python float division and `int(...)` truncation are modelled by exact
  rational division over `ℚ` and `Int.floor` (all truncated quantities in
  this file are non-negative, where floor and C-style truncation agree).
* The external world (HTTP responses, the headless-chromium subprocess and
  the filesystem of the temp files) is modelled by explicit environment
  records describing the outcome of each effect.
-/

/-- Colour modes that occur in this pipeline (`PIL` mode strings). -/
inductive PilMode where
  | RGB
  | RGBA
  | L
deriving DecidableEq, Repr

/-- Number of channel bytes per pixel of a mode. -/
def PilMode.channels : PilMode → Nat
  | .RGB => 3
  | .RGBA => 4
  | .L => 1

/-- An in-memory decoded raster image: mode, width, height and the channel
bytes of each pixel (`px x y`, column-major arguments, row-major data). -/
structure PilImage where
  mode : PilMode
  width : Nat
  height : Nat
  px : Nat → Nat → List Nat

/-- Extensional image equality: same mode, same dimensions and the same
channel bytes at every coordinate inside the frame. -/
def PilImage.Eqv (a b : PilImage) : Prop :=
  a.mode = b.mode ∧ a.width = b.width ∧ a.height = b.height ∧
    ∀ x, x < a.width → ∀ y, y < a.height → a.px x y = b.px x y

instance (a b : PilImage) : Decidable (a.Eqv b) := by
  unfold PilImage.Eqv; infer_instance

/-- Extensional equality lifted to `Option PilImage` (used to compare the
results of calls that may fail). -/
def OptEqv : Option PilImage → Option PilImage → Prop
  | some a, some b => a.Eqv b
  | none, none => True
  | _, _ => False

instance : (x y : Option PilImage) → Decidable (OptEqv x y)
  | some _, some _ => by unfold OptEqv; infer_instance
  | some _, none => .isFalse (by simp [OptEqv])
  | none, some _ => .isFalse (by simp [OptEqv])
  | none, none => .isTrue trivial

/-- Row-major serialisation of the raw pixel bytes (PIL `Image.tobytes`). -/
def PilImage.tobytes (img : PilImage) : List Nat :=
  (((List.range img.height).map fun y =>
    ((List.range img.width).map fun x => img.px x y).flatten)).flatten

/-- `Image.transpose(ROTATE_90)`: 90° counter-clockwise rotation, canvas
expanded (dimensions swapped).  Pixel `(x, y)` of the result is pixel
`(w - 1 - y, x)` of the source. -/
def pilRot90 (img : PilImage) : PilImage :=
  ⟨img.mode, img.height, img.width, fun x y => img.px (img.width - 1 - y) x⟩

/-- `Image.transpose(ROTATE_180)`: 180° rotation, same dimensions. -/
def pilRot180 (img : PilImage) : PilImage :=
  ⟨img.mode, img.width, img.height,
    fun x y => img.px (img.width - 1 - x) (img.height - 1 - y)⟩

/-- `Image.transpose(ROTATE_270)`: 270° counter-clockwise rotation, canvas
expanded. Pixel `(x, y)` of the result is pixel `(y, h - 1 - x)` of the
source. -/
def pilRot270 (img : PilImage) : PilImage :=
  ⟨img.mode, img.height, img.width, fun x y => img.px y (img.height - 1 - x)⟩

/-- `Image.rotate(angle, expand=1)` for the right angles used by this
repository.  Pillow special-cases these angles to exact transpositions
(0° returns a copy; 90/180/270 use the transpose operations above); no
other angle is ever produced by `change_orientation`. -/
def pilRotateExpand (angle : Nat) (img : PilImage) : PilImage :=
  match angle % 360 with
  | 90 => pilRot90 img
  | 180 => pilRot180 img
  | 270 => pilRot270 img
  | _ => img

/-- `change_orientation(image, orientation, inverted=False)`.

The Python body assigns the local `angle` only when `orientation` is
`'horizontal'` (0) or `'vertical'` (90); any other string leaves `angle`
unassigned and the function raises `UnboundLocalError` when `angle` is
next read — modelled as `none`.  When `inverted` is set the angle becomes
`(angle + 180) % 360`, and the image is rotated with `expand=1`. -/
def change_orientation (image : PilImage) (orientation : String)
    (inverted : Bool := false) : Option PilImage :=
  let angle? : Option Nat :=
    if orientation = "horizontal" then some 0
    else if orientation = "vertical" then some 90
    else none
  match angle? with
  | none => none
  | some angle =>
    let angle := if inverted then (angle + 180) % 360 else angle
    some (pilRotateExpand angle image)

/-- Python `int(q)` on a non-negative float, modelled on `ℚ`: truncation
toward zero, which on non-negative values is the floor. -/
def pyInt (q : ℚ) : Nat := (⌊q⌋).toNat

/-- `Image.crop((left, upper, right, lower))`: the rectangle of width
`right - left` and height `lower - upper`; pixels requested outside the
source frame are zero-filled (Pillow pads out-of-bounds crops with 0). -/
def pilCrop (left upper right lower : Nat) (img : PilImage) : PilImage :=
  ⟨img.mode, right - left, lower - upper, fun x y =>
    if left + x < img.width ∧ upper + y < img.height then
      img.px (left + x) (upper + y)
    else List.replicate img.mode.channels 0⟩

/-- `Image.resize(size, Image.LANCZOS)`.

Pillow's `resize` returns a plain copy when the requested size equals the
current size (its built-in short-circuit); otherwise it resamples to an
image of exactly the requested size.  The claims checked here depend only
on that short-circuit and on the output dimensions, so the interpolated
values of the LANCZOS kernel (float convolution) are represented by
source-index remapping. -/
def pilResize (size : Nat × Nat) (img : PilImage) : PilImage :=
  if img.width = size.1 ∧ img.height = size.2 then img
  else
    ⟨img.mode, size.1, size.2, fun x y =>
      img.px (x * img.width / size.1) (y * img.height / size.2)⟩

/-- `resize_image(image, desired_size, image_settings=[])`: aspect-ratio
aware centre (or edge-anchored) crop followed by an exact resize to the
desired size.  Ratios are Python float divisions, modelled on `ℚ`. -/
def resize_image (image : PilImage) (desired_size : Nat × Nat)
    (image_settings : List String := []) : PilImage :=
  let img_width := image.width
  let img_height := image.height
  let desired_width := desired_size.1
  let desired_height := desired_size.2
  let img_ratio : ℚ := (img_width : ℚ) / (img_height : ℚ)
  let desired_ratio : ℚ := (desired_width : ℚ) / (desired_height : ℚ)
  let keep_width := image_settings.contains "keep-width"
  if img_ratio > desired_ratio then
    -- Image is wider than desired aspect ratio
    let new_width := pyInt ((img_height : ℚ) * desired_ratio)
    let x_offset := if keep_width then 0 else (img_width - new_width) / 2
    pilResize (desired_width, desired_height)
      (pilCrop x_offset 0 (x_offset + new_width) img_height image)
  else
    -- Image is taller than desired aspect ratio
    let new_height := pyInt ((img_width : ℚ) / desired_ratio)
    let y_offset := if keep_width then 0 else (img_height - new_height) / 2
    pilResize (desired_width, desired_height)
      (pilCrop 0 y_offset img_width (y_offset + new_height) image)

/-- Clamp an integer coordinate into `[0, n-1]` (edge extension used by
Pillow's box blur at the image border). -/
def clampIdx (i : Int) (n : Nat) : Nat :=
  if i < 0 then 0 else if (n : Int) ≤ i then n - 1 else i.toNat

/-- Channel-wise sum of two pixels. -/
def pixAdd (a b : List Nat) : List Nat := List.zipWith (· + ·) a b

/-- Channel-wise scaling of a pixel. -/
def pixScale (k : Nat) (a : List Nat) : List Nat := a.map (fun v => k * v)

/-- `Image.resize(size, method, box=crop)` with a rational sub-box (used by
`ImageOps.fit`): produces an image of exactly `size`, sampling the source
inside `box`; the resampling kernel is abstracted to index remapping as in
`pilResize` (no claim depends on interpolated values). -/
def pilResizeBox (size : Nat × Nat) (box : ℚ × ℚ × ℚ × ℚ)
    (img : PilImage) : PilImage :=
  ⟨img.mode, size.1, size.2, fun x y =>
    img.px (pyInt (box.1 + (x : ℚ) * (box.2.2.1 - box.1) / (size.1 : ℚ)))
           (pyInt (box.2.1 + (y : ℚ) * (box.2.2.2 - box.2.1) / (size.2 : ℚ)))⟩

/-- `ImageOps.fit(image, size)` with the default method, `bleed=0.0` and
`centering=(0.5, 0.5)` (the defaults used by `pad_image_blur`): scales the
source to *cover* the target box, cropping the overflow centred. -/
def imageOpsFit (img : PilImage) (size : Nat × Nat) : PilImage :=
  let live_w : ℚ := (img.width : ℚ)
  let live_h : ℚ := (img.height : ℚ)
  let live_size_ratio : ℚ := live_w / live_h
  let output_ratio : ℚ := (size.1 : ℚ) / (size.2 : ℚ)
  let crop_w : ℚ := if live_size_ratio ≥ output_ratio then live_h * output_ratio else live_w
  let crop_h : ℚ := if live_size_ratio ≥ output_ratio then live_h else live_w / output_ratio
  let crop_left : ℚ := (live_w - crop_w) * (1 / 2)
  let crop_top : ℚ := (live_h - crop_h) * (1 / 2)
  pilResizeBox size (crop_left, crop_top, crop_left + crop_w, crop_top + crop_h) img

/-- `image.filter(ImageFilter.BoxBlur(r))`: each pixel becomes the average
of the `(2r+1) × (2r+1)` window around it, with edge pixels extended at the
border; dimensions and mode are unchanged.  The float average is modelled
with rounding to nearest. -/
def pilBoxBlur (r : Nat) (img : PilImage) : PilImage :=
  ⟨img.mode, img.width, img.height, fun x y =>
    let side := 2 * r + 1
    let count := side * side
    let total := (List.range side).foldl (fun acc dy =>
      (List.range side).foldl (fun acc2 dx =>
        pixAdd acc2 (img.px (clampIdx ((x : Int) + (dx : Int) - (r : Int)) img.width)
                            (clampIdx ((y : Int) + (dy : Int) - (r : Int)) img.height)))
        acc) (List.replicate img.mode.channels 0)
    total.map (fun v => (v + count / 2) / count)⟩

/-- Python 3 `round` to an integer: round half to even (banker's rounding),
on the non-negative rationals used here. -/
def pyRound (q : ℚ) : Nat :=
  let f : Int := ⌊q⌋
  let frac : ℚ := q - (f : ℚ)
  (if frac < 1 / 2 then f
   else if 1 / 2 < frac then f + 1
   else if f % 2 = 0 then f else f + 1).toNat

/-- `ImageOps.contain(image, size)`: scales the source to fit entirely
inside the target box, preserving its aspect ratio (the output size is the
adjusted size, not necessarily the requested one). -/
def imageOpsContain (img : PilImage) (size : Nat × Nat) : PilImage :=
  let im_ratio : ℚ := (img.width : ℚ) / (img.height : ℚ)
  let dest_ratio : ℚ := (size.1 : ℚ) / (size.2 : ℚ)
  let size' : Nat × Nat :=
    if im_ratio ≠ dest_ratio then
      if im_ratio > dest_ratio then
        let new_height := pyRound ((img.height : ℚ) / (img.width : ℚ) * (size.1 : ℚ))
        if new_height ≠ size.2 then (size.1, new_height) else size
      else
        let new_width := pyRound ((img.width : ℚ) / (img.height : ℚ) * (size.2 : ℚ))
        if new_width ≠ size.1 then (new_width, size.2) else size
    else size
  pilResize size' img

/-- `base.paste(im, (ox, oy))`: overwrites the rectangle of `base` starting
at `(ox, oy)` with `im`; dimensions and mode of `base` are kept. -/
def pilPaste (base im : PilImage) (ox oy : Nat) : PilImage :=
  ⟨base.mode, base.width, base.height, fun x y =>
    if ox ≤ x ∧ x < ox + im.width ∧ oy ≤ y ∧ y < oy + im.height then
      im.px (x - ox) (y - oy)
    else base.px x y⟩

/-- `pad_image_blur(img, dimensions)`: a blurred cover-scaled copy fills the
frame and the contain-scaled original is pasted centred on top. -/
def pad_image_blur (img : PilImage) (dimensions : Nat × Nat) : PilImage :=
  let bkg := imageOpsFit img dimensions
  let bkg := pilBoxBlur 8 bkg
  let img2 := imageOpsContain img dimensions
  let img_size := (img2.width, img2.height)
  pilPaste bkg img2 ((dimensions.1 - img_size.1) / 2) ((dimensions.2 - img_size.2) / 2)

/-- Pillow's RGB → L luminance: `L = (19595 R + 38470 G + 7471 B + 2^15) >> 16`. -/
def l8 (p : List Nat) : Nat :=
  (19595 * p.getD 0 0 + 38470 * p.getD 1 0 + 7471 * p.getD 2 0 + 32768) >>> 16

/-- `image.convert(mode)` for the conversions this pipeline performs:
RGBA → RGB drops the alpha channel (plain `convert` does not composite),
L → RGB replicates the grey channel, RGB/RGBA → L applies the luminance
formula, and converting to the current mode returns a copy. -/
def pilConvert (m : PilMode) (img : PilImage) : PilImage :=
  if img.mode = m then img
  else
    ⟨m, img.width, img.height, fun x y =>
      let p := img.px x y
      match m with
      | .RGB =>
        match img.mode with
        | .RGBA => p.take 3
        | .L => List.replicate 3 (p.getD 0 0)
        | .RGB => p
      | .L => [l8 p]
      | .RGBA =>
        match img.mode with
        | .L => List.replicate 3 (p.getD 0 0) ++ [255]
        | _ => p.take 3 ++ [255]⟩

/-- Truncation of a rational toward zero (C float-to-int cast). -/
def ratTrunc (q : ℚ) : Int := if 0 ≤ q then ⌊q⌋ else ⌈q⌉

/-- Clip an integer into the byte range. -/
def clip8i (v : Int) : Nat :=
  if v ≤ 0 then 0 else if (255 : Int) ≤ v then 255 else v.toNat

/-- One channel of `Image.blend(im1, im2, alpha)`: for `alpha ∈ [0, 1]`
Pillow computes `(UINT8)(in1 + alpha * (in2 - in1))` (float truncation);
outside that range it additionally clips the extrapolated value. -/
def blendChan (alpha : ℚ) (d i : Nat) : Nat :=
  if 0 ≤ alpha ∧ alpha ≤ 1 then
    (ratTrunc ((d : ℚ) + alpha * ((i : ℚ) - (d : ℚ)))).toNat
  else clip8i (ratTrunc ((d : ℚ) + alpha * ((i : ℚ) - (d : ℚ))))

/-- `Image.blend(im1, im2, alpha)` channel-wise over two images of the same
mode and size. -/
def pilBlend (alpha : ℚ) (im1 im2 : PilImage) : PilImage :=
  ⟨im2.mode, im2.width, im2.height, fun x y =>
    List.zipWith (blendChan alpha) (im1.px x y) (im2.px x y)⟩

/-- `ImageEnhance.Brightness` degenerate image: `Image.new(mode, size, 0)`
(an all-black image of the same mode and size). -/
def brightnessDegenerate (img : PilImage) : PilImage :=
  ⟨img.mode, img.width, img.height,
    fun _ _ => List.replicate img.mode.channels 0⟩

/-- `ImageStat.Stat(image.convert("L")).mean[0]`: the mean of the luminance
band, as an exact rational. -/
def lMean (img : PilImage) : ℚ :=
  ((pilConvert .L img).tobytes.sum : ℚ) / ((img.width * img.height : Nat) : ℚ)

/-- `ImageEnhance.Contrast` degenerate image:
`Image.new("L", size, int(mean + 0.5)).convert(mode)` where `mean` is the
luminance mean of the source. -/
def contrastDegenerate (img : PilImage) : PilImage :=
  let mean := pyInt (lMean img + 1 / 2)
  pilConvert img.mode ⟨.L, img.width, img.height, fun _ _ => [mean]⟩

/-- `ImageEnhance.Color` degenerate image:
`image.convert("L").convert(image.mode)`. -/
def colorDegenerate (img : PilImage) : PilImage :=
  pilConvert img.mode (pilConvert .L img)

/-- Clip-and-round of the float result of a 3×3 filter (Pillow clips to the
byte range and rounds to nearest). -/
def clip8q (q : ℚ) : Nat :=
  if q ≤ 0 then 0 else if (255 : ℚ) ≤ q then 255 else pyInt (q + 1 / 2)

/-- `image.filter(ImageFilter.SMOOTH)`: the 3×3 kernel
`(1, 1, 1, 1, 5, 1, 1, 1, 1)` with scale 13 and offset 0, applied to the
interior; Pillow copies the one-pixel border unchanged from the source. -/
def pilSmooth (img : PilImage) : PilImage :=
  ⟨img.mode, img.width, img.height, fun x y =>
    if 1 ≤ x ∧ x + 1 < img.width ∧ 1 ≤ y ∧ y + 1 < img.height then
      let s := pixAdd (pixScale 5 (img.px x y))
        (pixAdd (img.px (x - 1) (y - 1)) (pixAdd (img.px x (y - 1))
          (pixAdd (img.px (x + 1) (y - 1)) (pixAdd (img.px (x - 1) y)
            (pixAdd (img.px (x + 1) y) (pixAdd (img.px (x - 1) (y + 1))
              (pixAdd (img.px x (y + 1)) (img.px (x + 1) (y + 1)))))))))
      s.map (fun (v : Nat) => clip8q ((v : ℚ) / 13))
    else img.px x y⟩

/-- `ImageEnhance.Sharpness` degenerate image: the SMOOTH-filtered source. -/
def sharpnessDegenerate (img : PilImage) : PilImage := pilSmooth img

/-- `ImageEnhance.Brightness(img).enhance(f)`. -/
def enhanceBrightness (img : PilImage) (factor : ℚ) : PilImage :=
  pilBlend factor (brightnessDegenerate img) img

/-- `ImageEnhance.Contrast(img).enhance(f)`. -/
def enhanceContrast (img : PilImage) (factor : ℚ) : PilImage :=
  pilBlend factor (contrastDegenerate img) img

/-- `ImageEnhance.Color(img).enhance(f)`. -/
def enhanceColor (img : PilImage) (factor : ℚ) : PilImage :=
  pilBlend factor (colorDegenerate img) img

/-- `ImageEnhance.Sharpness(img).enhance(f)`. -/
def enhanceSharpness (img : PilImage) (factor : ℚ) : PilImage :=
  pilBlend factor (sharpnessDegenerate img) img

/-- The `image_settings` dict of `apply_image_enhancement`: the four factors
are looked up with `.get(key, 1.0)`, so an absent key means `1.0`. -/
structure ImageSettings where
  brightness : Option ℚ := none
  contrast : Option ℚ := none
  saturation : Option ℚ := none
  sharpness : Option ℚ := none

/-- `apply_image_enhancement(img, image_settings={})`: converts to RGB when
the mode is neither RGB nor L, then applies brightness, contrast,
saturation (Color) and sharpness, in that order. -/
def apply_image_enhancement (img : PilImage)
    (image_settings : ImageSettings := {}) : PilImage :=
  let img := if img.mode = .RGB ∨ img.mode = .L then img else pilConvert .RGB img
  let img := enhanceBrightness img (image_settings.brightness.getD 1)
  let img := enhanceContrast img (image_settings.contrast.getD 1)
  let img := enhanceColor img (image_settings.saturation.getD 1)
  let img := enhanceSharpness img (image_settings.sharpness.getD 1)
  img

/-! ## SHA-256 (`hashlib.sha256(...).hexdigest()`), per FIPS 180-4 -/

/-- Reduce to a 32-bit word. -/
def w32 (n : Nat) : Nat := n % 4294967296

/-- Right rotation of a 32-bit word. -/
def rotr (b n : Nat) : Nat := w32 ((n >>> b) ||| (n <<< (32 - b)))

/-- Bitwise complement of a 32-bit word. -/
def not32 (n : Nat) : Nat := n ^^^ 4294967295

def ch32 (x y z : Nat) : Nat := (x &&& y) ^^^ (not32 x &&& z)

def maj32 (x y z : Nat) : Nat := (x &&& y) ^^^ (x &&& z) ^^^ (y &&& z)

def bigSigma0 (x : Nat) : Nat := rotr 2 x ^^^ rotr 13 x ^^^ rotr 22 x

def bigSigma1 (x : Nat) : Nat := rotr 6 x ^^^ rotr 11 x ^^^ rotr 25 x

def smallSigma0 (x : Nat) : Nat := rotr 7 x ^^^ rotr 18 x ^^^ (x >>> 3)

def smallSigma1 (x : Nat) : Nat := rotr 17 x ^^^ rotr 19 x ^^^ (x >>> 10)

/-- The 64 SHA-256 round constants (fractional parts of the cube roots of
the first 64 primes). -/
def sha256K : List Nat :=
  [1116352408, 1899447441, 3049323471, 3921009573, 961987163, 1508970993,
   2453635748, 2870763221, 3624381080, 310598401, 607225278, 1426881987,
   1925078388, 2162078206, 2614888103, 3248222580, 3835390401, 4022224774,
   264347078, 604807628, 770255983, 1249150122, 1555081692, 1996064986,
   2554220882, 2821834349, 2952996808, 3210313671, 3336571891, 3584528711,
   113926993, 338241895, 666307205, 773529912, 1294757372, 1396182291,
   1695183700, 1986661051, 2177026350, 2456956037, 2730485921, 2820302411,
   3259730800, 3345764771, 3516065817, 3600352804, 4094571909, 275423344,
   430227734, 506948616, 659060556, 883997877, 958139571, 1322822218,
   1537002063, 1747873779, 1955562222, 2024104815, 2227730452, 2361852424,
   2428436474, 2756734187, 3204031479, 3329325298]

/-- The eight 32-bit chaining words of the SHA-256 state. -/
structure Sha256State where
  a : Nat
  b : Nat
  c : Nat
  d : Nat
  e : Nat
  f : Nat
  g : Nat
  h : Nat

/-- Initial hash value (fractional parts of the square roots of the first
eight primes). -/
def sha256Init : Sha256State :=
  ⟨1779033703, 3144134277, 1013904242, 2773480762,
   1359893119, 2600822924, 528734635, 1541459225⟩

/-- Extend the 16 words of a block to the 64-entry message schedule. -/
def sha256Schedule (block : List Nat) : List Nat :=
  (List.range 48).foldl (fun ws _ =>
    ws ++ [w32 (smallSigma1 (ws.getD (ws.length - 2) 0) +
      ws.getD (ws.length - 7) 0 +
      smallSigma0 (ws.getD (ws.length - 15) 0) +
      ws.getD (ws.length - 16) 0)]) block

/-- One SHA-256 compression round. -/
def sha256Round (k w : Nat) (s : Sha256State) : Sha256State :=
  let t1 := w32 (s.h + bigSigma1 s.e + ch32 s.e s.f s.g + k + w)
  let t2 := w32 (bigSigma0 s.a + maj32 s.a s.b s.c)
  ⟨w32 (t1 + t2), s.a, s.b, s.c, w32 (s.d + t1), s.e, s.f, s.g⟩

/-- Compression of one 16-word block into the chaining state. -/
def sha256Compress (st : Sha256State) (block : List Nat) : Sha256State :=
  let ws := sha256Schedule block
  let r := (List.range 64).foldl
    (fun s i => sha256Round (sha256K.getD i 0) (ws.getD i 0) s) st
  ⟨w32 (st.a + r.a), w32 (st.b + r.b), w32 (st.c + r.c), w32 (st.d + r.d),
   w32 (st.e + r.e), w32 (st.f + r.f), w32 (st.g + r.g), w32 (st.h + r.h)⟩

/-- Big-endian bytes of a 64-bit length field. -/
def be64 (n : Nat) : List Nat :=
  [n >>> 56 % 256, n >>> 48 % 256, n >>> 40 % 256, n >>> 32 % 256,
   n >>> 24 % 256, n >>> 16 % 256, n >>> 8 % 256, n % 256]

/-- Big-endian bytes of a 32-bit word. -/
def be32 (n : Nat) : List Nat :=
  [n >>> 24 % 256, n >>> 16 % 256, n >>> 8 % 256, n % 256]

/-- SHA-256 padding: append `0x80`, zero bytes up to 56 mod 64, then the
message bit length as 8 big-endian bytes. -/
def sha256Pad (msg : List Nat) : List Nat :=
  let L := msg.length
  let k := (120 - (L + 1) % 64) % 64
  msg ++ [128] ++ List.replicate k 0 ++ be64 (L * 8)

/-- Split the padded message into 64-byte blocks. -/
def sha256Blocks (l : List Nat) : List (List Nat) :=
  if h : l = [] then [] else
    l.take 64 :: sha256Blocks (l.drop 64)
termination_by l.length
decreasing_by
  simp only [List.length_drop]
  exact Nat.sub_lt (List.length_pos.mpr h) (by omega)

/-- Interpret a 64-byte block as 16 big-endian 32-bit words. -/
def sha256Words (block : List Nat) : List Nat :=
  (List.range 16).map (fun i =>
    block.getD (4 * i) 0 * 16777216 + block.getD (4 * i + 1) 0 * 65536 +
    block.getD (4 * i + 2) 0 * 256 + block.getD (4 * i + 3) 0)

/-- SHA-256 of a byte string, as the final chaining state. -/
def sha256 (msg : List Nat) : Sha256State :=
  (sha256Blocks (sha256Pad msg)).foldl
    (fun st b => sha256Compress st (sha256Words b)) sha256Init

/-- The 32 digest bytes. -/
def sha256Digest (msg : List Nat) : List Nat :=
  let s := sha256 msg
  be32 s.a ++ be32 s.b ++ be32 s.c ++ be32 s.d ++
    be32 s.e ++ be32 s.f ++ be32 s.g ++ be32 s.h

/-- The sixteen lowercase hexadecimal digits. -/
def hexChars : List Char := "0123456789abcdef".toList

/-- A single hex digit (for values below 16). -/
def hexDigit (n : Nat) : Char := hexChars.getD n '0'

/-- The two hex digits of one byte. -/
def hexByte (b : Nat) : List Char := [hexDigit (b / 16), hexDigit (b % 16)]

/-- `hashlib.sha256(msg).hexdigest()` as a list of characters. -/
def sha256Hexdigest (msg : List Nat) : List Char :=
  ((sha256Digest msg).map hexByte).flatten

/-- `compute_image_hash(image)`: SHA-256 hex digest of the raw bytes of the
RGB-converted image. -/
def compute_image_hash (image : PilImage) : List Char :=
  sha256Hexdigest (pilConvert .RGB image).tobytes

/-! ## Effectful operations, modelled over explicit environments -/

/-- Environment of one `take_screenshot` invocation: the outcome of the
external chromium process and of the filesystem checks on the temp `.png`
output file.  `NamedTemporaryFile(delete=False)` creates the file before
the process runs; `fileExists` and `fileSize` describe the path *after*
the process returned, and `decoded` is the result of `Image.open` on it
(`none` models `PIL` raising on undecodable bytes).  `raiseUnexpected`
models an unexpected exception thrown during the sequence (e.g. by
`subprocess.run`), which the outer handler catches. -/
structure ShotEnv where
  returncode : Int
  fileExists : Bool
  fileSize : Nat
  decoded : Option PilImage
  raiseUnexpected : Bool

/-- Result of one `take_screenshot` invocation: the returned value and
whether the temp `.png` file is still on disk after the call returned. -/
structure ShotResult where
  image : Option PilImage
  pngRemains : Bool

/-- `take_screenshot(target, dimensions, timeout_ms=None)`.

The body runs inside one big `try`.  After the temp output file is created
and the subprocess has run, four validation checks each `return None`
directly from inside the `try` — these early returns skip both the final
`os.remove` and the `except` handler, so the temp file stays on disk
whenever it exists at that point.  Only the success path (`os.remove`
after the decoded image is copied out) and the `except` handler (which
removes the file if it exists) delete it. -/
def take_screenshot (env : ShotEnv) : ShotResult :=
  if env.raiseUnexpected then
    -- `except Exception`: logs, then removes the temp file if it exists
    { image := none, pngRemains := false }
  else if env.returncode ≠ 0 then
    -- `return None` before any cleanup: the temp file leaks if present
    { image := none, pngRemains := env.fileExists }
  else if env.fileExists = false then
    { image := none, pngRemains := false }
  else if env.fileSize = 0 then
    -- `return None` before any cleanup: the (empty) temp file leaks
    { image := none, pngRemains := true }
  else
    match env.decoded with
    | none =>
      -- `return None` from the inner decode handler: the temp file leaks
      { image := none, pngRemains := true }
    | some img =>
      -- `image = img.copy()` then `os.remove(img_file_path)`
      { image := some img, pngRemains := false }

/-- Environment of one `take_screenshot_html` invocation: whether writing
the temp `.html` file raises, and the environment of the inner
`take_screenshot` call. -/
structure HtmlShotEnv where
  writeFails : Bool
  shot : ShotEnv

/-- Result of one `take_screenshot_html` invocation. -/
structure HtmlShotResult where
  image : Option PilImage
  htmlRemains : Bool
  pngRemains : Bool

/-- `take_screenshot_html(html_str, dimensions, timeout_ms=None)`: writes
the HTML to a temp `.html` file, delegates to `take_screenshot` (which
never raises), then removes the `.html` file unconditionally — so on both
the success and the render-failure return the `.html` file is gone.  Only
an unexpected exception while writing the temp file (caught by the `except`
handler, which performs no cleanup) can leak it. -/
def take_screenshot_html (env : HtmlShotEnv) : HtmlShotResult :=
  if env.writeFails then
    { image := none, htmlRemains := true, pngRemains := false }
  else
    let r := take_screenshot env.shot
    { image := r.image, htmlRemains := false, pngRemains := r.pngRemains }

/-- Environment of one `get_image` invocation: the HTTP response for the
requested URL, with the body represented by what `Image.open` would yield
on it (`none` models `PIL.UnidentifiedImageError`). -/
structure HttpResponse where
  status_code : Nat
  decodedBody : Option PilImage

/-- `get_image(image_url)`: statuses in `[200, 300)` or exactly `304` are
treated as success and the body is decoded with `Image.open` — which is
*not* wrapped in any handler, so an undecodable body propagates an
exception (`Except.error`).  Any other status logs and returns `None`. -/
def get_image (response : HttpResponse) : Except String (Option PilImage) :=
  if (200 ≤ response.status_code ∧ response.status_code < 300) ∨
      response.status_code = 304 then
    match response.decodedBody with
    | some img => .ok (some img)
    | none => .error "PIL.UnidentifiedImageError"
  else
    .ok none

/-! ## Test fixtures and well-formedness -/

/-- Channel-count well-formedness: every pixel of the image carries exactly
the channel bytes of its mode. -/
def PilImage.Wf (img : PilImage) : Prop :=
  ∀ x y, (img.px x y).length = img.mode.channels

/-- A 2×4 RGB test bitmap (taller than most targets). -/
def sampleTall : PilImage := ⟨.RGB, 2, 4, fun x y => [x, y, 0]⟩

/-- A 1920×1080 RGB test bitmap (the scenario source of the spec). -/
def sampleWide : PilImage :=
  ⟨.RGB, 1920, 1080, fun x y => [(x + y) % 256, x % 256, y % 256]⟩

/-- A 1×1 RGB test bitmap. -/
def sampleRGB : PilImage := ⟨.RGB, 1, 1, fun _ _ => [10, 20, 30]⟩

/-- A 1×1 RGBA test bitmap with the same colour channels as `sampleRGB`. -/
def sampleRGBA : PilImage := ⟨.RGBA, 1, 1, fun _ _ => [10, 20, 30, 40]⟩

/-! ## Helper lemmas -/

lemma eqv_refl (a : PilImage) : a.Eqv a :=
  ⟨rfl, rfl, rfl, fun _ _ _ _ => rfl⟩

lemma co_horizontal (img : PilImage) :
    change_orientation img "horizontal" = some img := rfl

lemma co_horizontal_inv (img : PilImage) :
    change_orientation img "horizontal" true = some (pilRot180 img) := rfl

lemma co_vertical (img : PilImage) :
    change_orientation img "vertical" = some (pilRot90 img) := rfl

lemma co_vertical_inv (img : PilImage) :
    change_orientation img "vertical" true = some (pilRot270 img) := rfl

lemma rot270_rot90_eqv (img : PilImage) :
    (pilRot270 (pilRot90 img)).Eqv img := by
  refine ⟨rfl, rfl, rfl, fun x hx y hy => ?_⟩
  simp only [pilRot270, pilRot90] at hx hy ⊢
  have hxw : img.width - 1 - (img.width - 1 - x) = x := by omega
  rw [hxw]

lemma rot90_rot270_eqv (img : PilImage) :
    (pilRot90 (pilRot270 img)).Eqv img := by
  refine ⟨rfl, rfl, rfl, fun x hx y hy => ?_⟩
  simp only [pilRot90, pilRot270] at hx hy ⊢
  have hyh : img.height - 1 - (img.height - 1 - y) = y := by omega
  rw [hyh]

/-! ## Claim C2 -/

/-- Claim C2 counterexample: for `orientation = 'vertical'`, applying
`change_orientation` with `inverted=false` and then `inverted=true`
composes the 90° and the 270° rotations — a net 360°, i.e. the identity
on this 2×1 bitmap, which differs from its 180° rotation.  The claimed
net 180° rotation therefore fails for the vertical orientation. -/
theorem claim_C2_counterexample :
    OptEqv
      ((change_orientation ⟨.RGB, 2, 1, fun x _ => [x, 0, 0]⟩ "vertical" false).bind
        (fun j => change_orientation j "vertical" true))
      (some ⟨.RGB, 2, 1, fun x _ => [x, 0, 0]⟩) ∧
    ¬ OptEqv
      ((change_orientation ⟨.RGB, 2, 1, fun x _ => [x, 0, 0]⟩ "vertical" false).bind
        (fun j => change_orientation j "vertical" true))
      (some (pilRot180 ⟨.RGB, 2, 1, fun x _ => [x, 0, 0]⟩)) := by
  decide

/-- Claim C2 (amended): two successive `change_orientation` calls with the
same orientation and opposite `inverted` flags compose, in either order, to
a net 180° rotation for `'horizontal'`, but to a net 360° rotation — the
identity — for `'vertical'` (base angle 90° plus inverted angle 270°). -/
theorem claim_C2_amended (img : PilImage) :
    OptEqv ((change_orientation img "horizontal" false).bind
      (fun j => change_orientation j "horizontal" true)) (some (pilRot180 img)) ∧
    OptEqv ((change_orientation img "horizontal" true).bind
      (fun j => change_orientation j "horizontal" false)) (some (pilRot180 img)) ∧
    OptEqv ((change_orientation img "vertical" false).bind
      (fun j => change_orientation j "vertical" true)) (some img) ∧
    OptEqv ((change_orientation img "vertical" true).bind
      (fun j => change_orientation j "vertical" false)) (some img) := by
  refine ⟨?_, ?_, ?_, ?_⟩
  · exact eqv_refl (pilRot180 img)
  · exact eqv_refl (pilRot180 img)
  · exact rot270_rot90_eqv img
  · exact rot90_rot270_eqv img

/-! ## Claim C10 -/

/-- Claim C10: `change_orientation` succeeds exactly when the orientation
string is `'horizontal'` or `'vertical'`; any other string leaves the local
`angle` unassigned, so the call raises `UnboundLocalError` (modelled as
`none`) instead of returning a bitmap. -/
theorem claim_C10 (img : PilImage) (orientation : String) (inverted : Bool) :
    (change_orientation img orientation inverted).isSome ↔
      orientation = "horizontal" ∨ orientation = "vertical" := by
  unfold change_orientation
  by_cases h1 : orientation = "horizontal" <;>
    by_cases h2 : orientation = "vertical" <;>
      simp [h1, h2]

/-! ## Claim C9 -/

/-- Claim C9: `take_screenshot` yields the absence outcome (`None`), never
an exception, on each of the four failure cases — non-zero exit code,
missing output file, zero-byte output file, undecodable output file — each
checked in short-circuiting order (an earlier failure decides the result
whatever the later fields hold), and a bitmap is returned exactly on the
single path that passes all four checkpoints. -/
theorem claim_C9 (env : ShotEnv) :
    (env.returncode ≠ 0 → (take_screenshot env).image = none) ∧
    (env.returncode = 0 → env.fileExists = false →
      (take_screenshot env).image = none) ∧
    (env.returncode = 0 → env.fileExists = true → env.fileSize = 0 →
      (take_screenshot env).image = none) ∧
    (env.returncode = 0 → env.fileExists = true → env.fileSize ≠ 0 →
      env.decoded = none → (take_screenshot env).image = none) ∧
    ((take_screenshot env).image.isSome ↔
      env.raiseUnexpected = false ∧ env.returncode = 0 ∧
        env.fileExists = true ∧ env.fileSize ≠ 0 ∧ env.decoded.isSome) := by
  rcases env with ⟨rc, fe, fs, dec, ru⟩
  cases ru <;> cases fe <;> rcases dec with _ | i <;>
    by_cases hrc : rc = 0 <;> by_cases hfs : fs = 0 <;>
      simp_all [take_screenshot]

/-- Claim C9 witness: the four failure environments each return `None`, and
a fully successful environment returns a bitmap. -/
theorem claim_C9_witness :
    (take_screenshot ⟨1, true, 7, some ⟨.RGB, 1, 1, fun _ _ => [0, 0, 0]⟩, false⟩).image = none ∧
    (take_screenshot ⟨0, false, 7, some ⟨.RGB, 1, 1, fun _ _ => [0, 0, 0]⟩, false⟩).image = none ∧
    (take_screenshot ⟨0, true, 0, some ⟨.RGB, 1, 1, fun _ _ => [0, 0, 0]⟩, false⟩).image = none ∧
    (take_screenshot ⟨0, true, 7, none, false⟩).image = none ∧
    (take_screenshot ⟨0, true, 7, some ⟨.RGB, 1, 1, fun _ _ => [0, 0, 0]⟩, false⟩).image.isSome := by
  refine ⟨(claim_C9 _).1 (by decide), (claim_C9 _).2.1 rfl rfl,
    (claim_C9 _).2.2.1 rfl rfl rfl, (claim_C9 _).2.2.2.1 rfl rfl (by decide) rfl,
    (claim_C9 _).2.2.2.2.mpr ⟨rfl, rfl, rfl, by decide, rfl⟩⟩

/-! ## Claim C1 -/

/-- Claim C1 counterexample: when the external process exits non-zero while
the temp `.png` file still exists, `take_screenshot` returns `None` through
an early `return` inside the `try` block that performs no cleanup — the
temp file remains on disk, contradicting the claimed deletion on every exit
path. -/
theorem claim_C1_counterexample :
    (take_screenshot ⟨1, true, 0, none, false⟩).pngRemains = true := rfl

/-- Claim C1 (amended): the temp `.png` file is deleted on the success path
and on the unexpected-exception path (whose handler removes it if present),
but the early `return None` of the non-zero-exit check leaves the file on
disk whenever it still exists, and the zero-byte and undecodable checks
always leave it on disk; on the missing-file path there is nothing to
delete.  The temp `.html` file of `take_screenshot_html` is deleted
unconditionally after the inner render call, on success and on render
failure alike. -/
theorem claim_C1_amended (env : ShotEnv) (henv : HtmlShotEnv) :
    (env.raiseUnexpected = false → env.returncode = 0 → env.fileExists = true →
      env.fileSize ≠ 0 → env.decoded.isSome →
      (take_screenshot env).pngRemains = false) ∧
    (env.raiseUnexpected = true → (take_screenshot env).pngRemains = false) ∧
    (env.raiseUnexpected = false → env.returncode ≠ 0 →
      (take_screenshot env).pngRemains = env.fileExists) ∧
    (env.raiseUnexpected = false → env.returncode = 0 → env.fileExists = true →
      env.fileSize = 0 → (take_screenshot env).pngRemains = true) ∧
    (env.raiseUnexpected = false → env.returncode = 0 → env.fileExists = true →
      env.fileSize ≠ 0 → env.decoded = none →
      (take_screenshot env).pngRemains = true) ∧
    (henv.writeFails = false →
      (take_screenshot_html henv).htmlRemains = false) := by
  rcases env with ⟨rc, fe, fs, dec, ru⟩
  rcases henv with ⟨wf, shot⟩
  cases ru <;> cases fe <;> cases wf <;> rcases dec with _ | i <;>
    by_cases hrc : rc = 0 <;> by_cases hfs : fs = 0 <;>
      simp_all [take_screenshot, take_screenshot_html]

/-- Claim C1 witness: cleanup does happen on the success path, on the
unexpected-exception path, and for the `.html` file after a failed render. -/
theorem claim_C1_witness :
    (take_screenshot ⟨0, true, 7, some ⟨.RGB, 1, 1, fun _ _ => [0, 0, 0]⟩, false⟩).pngRemains = false ∧
    (take_screenshot ⟨0, true, 7, none, true⟩).pngRemains = false ∧
    (take_screenshot_html ⟨false, ⟨1, true, 0, none, false⟩⟩).htmlRemains = false := by
  refine ⟨(claim_C1_amended _ ⟨false, ⟨1, true, 0, none, false⟩⟩).1 rfl rfl rfl (by decide) rfl,
    (claim_C1_amended ⟨0, true, 7, none, true⟩ ⟨false, ⟨1, true, 0, none, false⟩⟩).2.1 rfl,
    (claim_C1_amended ⟨0, true, 7, none, true⟩ _).2.2.2.2.2 rfl⟩

/-! ## Claim C4 -/

/-- Claim C4 counterexample: a 200 response whose body fails to decode as
an image makes `get_image` raise (`Image.open` is called outside any
handler, so `PIL.UnidentifiedImageError` propagates to the caller) instead
of yielding the absence outcome. -/
theorem claim_C4_counterexample :
    get_image ⟨200, none⟩ = .error "PIL.UnidentifiedImageError" := rfl

/-- Claim C4 (amended): a non-success HTTP status (outside `[200, 300)` and
not `304`) yields the absence outcome after logging and never raises; but a
success-status response whose body fails to decode raises an exception to
the caller rather than yielding absence, while a decodable body yields the
bitmap. -/
theorem claim_C4_amended (r : HttpResponse) :
    (¬((200 ≤ r.status_code ∧ r.status_code < 300) ∨ r.status_code = 304) →
      get_image r = .ok none) ∧
    (((200 ≤ r.status_code ∧ r.status_code < 300) ∨ r.status_code = 304) →
      r.decodedBody = none →
      get_image r = .error "PIL.UnidentifiedImageError") ∧
    (∀ img, ((200 ≤ r.status_code ∧ r.status_code < 300) ∨ r.status_code = 304) →
      r.decodedBody = some img → get_image r = .ok (some img)) := by
  rcases r with ⟨st, body⟩
  refine ⟨fun hfail => ?_, fun hok hnone => ?_, fun img hok hsome => ?_⟩
  · simp [get_image, hfail]
  · have hb : body = none := hnone
    subst hb
    simp [get_image, hok]
  · have hb : body = some img := hsome
    subst hb
    simp [get_image, hok]

/-- Claim C4 witness: a 404 yields absence without raising, a 304 with a
decodable body yields the bitmap, and both hypotheses are satisfiable. -/
theorem claim_C4_witness :
    get_image ⟨404, none⟩ = .ok none ∧
    get_image ⟨304, some ⟨.RGB, 1, 1, fun _ _ => [1, 2, 3]⟩⟩ =
      .ok (some ⟨.RGB, 1, 1, fun _ _ => [1, 2, 3]⟩) := by
  refine ⟨(claim_C4_amended ⟨404, none⟩).1 (by decide), ?_⟩
  exact (claim_C4_amended _).2.2 ⟨.RGB, 1, 1, fun _ _ => [1, 2, 3]⟩ (by decide) rfl

/-! ## Resize dimension lemmas and sample images -/

lemma pilResize_width (size : Nat × Nat) (img : PilImage) :
    (pilResize size img).width = size.1 := by
  unfold pilResize
  split
  · next h => exact h.1
  · rfl

lemma pilResize_height (size : Nat × Nat) (img : PilImage) :
    (pilResize size img).height = size.2 := by
  unfold pilResize
  split
  · next h => exact h.2
  · rfl

/-! ## Claim C6 -/

/-- Claim C6: for positive target dimensions (and a non-degenerate source
bitmap, without which the Python ratio computation would divide by zero),
both `resize_image` and `pad_image_blur` return a bitmap of exactly the
requested dimensions. -/
theorem claim_C6 (img : PilImage) (dw dh : Nat) (s : List String)
    (hw : 0 < img.width) (hh : 0 < img.height) (hdw : 0 < dw) (hdh : 0 < dh) :
    ((resize_image img (dw, dh) s).width = dw ∧
     (resize_image img (dw, dh) s).height = dh) ∧
    ((pad_image_blur img (dw, dh)).width = dw ∧
     (pad_image_blur img (dw, dh)).height = dh) := by
  refine ⟨⟨?_, ?_⟩, rfl, rfl⟩
  · unfold resize_image
    dsimp only
    split <;> exact pilResize_width _ _
  · unfold resize_image
    dsimp only
    split <;> exact pilResize_height _ _

/-- Claim C6 witness: a 2×4 source resized and padded to 3×5 has exactly
the requested dimensions. -/
theorem claim_C6_witness :
    ((resize_image sampleTall (3, 5) []).width = 3 ∧
     (resize_image sampleTall (3, 5) []).height = 5) ∧
    ((pad_image_blur sampleTall (3, 5)).width = 3 ∧
     (pad_image_blur sampleTall (3, 5)).height = 5) :=
  claim_C6 sampleTall 3 5 [] (by decide) (by decide) (by decide) (by decide)

/-! ## Claim C5 -/

/-- Claim C5: when the source aspect ratio exceeds the target ratio and
`keep-width` is not requested, `resize_image` crops to width
`floor(imgHeight * targetRatio)` at horizontal offset
`(imgWidth - newWidth) / 2` with full height retained, then resizes to
exactly the target dimensions. -/
theorem claim_C5 (img : PilImage) (dw dh : Nat) (s : List String)
    (hh : 0 < img.height) (hdh : 0 < dh)
    (hratio : (img.width : ℚ) / (img.height : ℚ) > (dw : ℚ) / (dh : ℚ))
    (hkeep : s.contains "keep-width" = false) :
    resize_image img (dw, dh) s =
      pilResize (dw, dh)
        (pilCrop ((img.width - pyInt ((img.height : ℚ) * ((dw : ℚ) / (dh : ℚ)))) / 2) 0
          ((img.width - pyInt ((img.height : ℚ) * ((dw : ℚ) / (dh : ℚ)))) / 2 +
            pyInt ((img.height : ℚ) * ((dw : ℚ) / (dh : ℚ))))
          img.height img) ∧
    (resize_image img (dw, dh) s).width = dw ∧
    (resize_image img (dw, dh) s).height = dh := by
  have hmain : resize_image img (dw, dh) s =
      pilResize (dw, dh)
        (pilCrop ((img.width - pyInt ((img.height : ℚ) * ((dw : ℚ) / (dh : ℚ)))) / 2) 0
          ((img.width - pyInt ((img.height : ℚ) * ((dw : ℚ) / (dh : ℚ)))) / 2 +
            pyInt ((img.height : ℚ) * ((dw : ℚ) / (dh : ℚ))))
          img.height img) := by
    unfold resize_image
    dsimp only
    rw [if_pos hratio, hkeep]
    simp
  refine ⟨hmain, ?_, ?_⟩
  · rw [hmain]; exact pilResize_width _ _
  · rw [hmain]; exact pilResize_height _ _

/-- Claim C5 witness: the spec scenario — a 1920×1080 source and target
(800, 480) — crops `x ∈ [60, 1860)` at full height (`newWidth = 1800`,
`xOffset = 60`) and the output is exactly 800×480. -/
theorem claim_C5_witness :
    (sampleWide.width : ℚ) / (sampleWide.height : ℚ) >
      ((800 : Nat) : ℚ) / ((480 : Nat) : ℚ) ∧
    resize_image sampleWide (800, 480) [] =
      pilResize (800, 480) (pilCrop 60 0 1860 1080 sampleWide) ∧
    (resize_image sampleWide (800, 480) []).width = 800 ∧
    (resize_image sampleWide (800, 480) []).height = 480 := by
  have hr : (sampleWide.width : ℚ) / (sampleWide.height : ℚ) >
      ((800 : Nat) : ℚ) / ((480 : Nat) : ℚ) := by norm_num [sampleWide]
  have h := claim_C5 sampleWide 800 480 []
    (by norm_num [sampleWide]) (by norm_num) hr rfl
  refine ⟨hr, ?_, h.2.1, h.2.2⟩
  rw [h.1]
  norm_num [pyInt, sampleWide]
  rfl

/-! ## Claim C3 -/

/-- Characterisation of the vertical-crop (else) branch of `resize_image`:
when the source ratio does not exceed the target ratio, the result is the
exact resize of a full-width crop whose vertical offset is 0 when
`keep-width` is requested and `(imgHeight - newHeight) / 2` otherwise. -/
lemma resize_image_tall (img : PilImage) (dw dh : Nat) (s : List String)
    (hle : (img.width : ℚ) / (img.height : ℚ) ≤ (dw : ℚ) / (dh : ℚ)) :
    resize_image img (dw, dh) s =
      pilResize (dw, dh)
        (pilCrop 0
          (if s.contains "keep-width" then 0
           else (img.height - pyInt ((img.width : ℚ) / ((dw : ℚ) / (dh : ℚ)))) / 2)
          img.width
          ((if s.contains "keep-width" then 0
            else (img.height - pyInt ((img.width : ℚ) / ((dw : ℚ) / (dh : ℚ)))) / 2) +
            pyInt ((img.width : ℚ) / ((dw : ℚ) / (dh : ℚ)))) img) := by
  unfold resize_image
  dsimp only
  rw [if_neg (not_lt.mpr hle)]

/-- Claim C3 counterexample: a 2×4 source resized to a 2×2 target lies in
the vertical-crop branch, yet the `keep-width` flag changes the result —
without it the crop is vertically centred (rows 1–2), with it the crop is
anchored at the top (rows 0–1), and the pixels differ. -/
theorem claim_C3_counterexample :
    ¬ PilImage.Eqv (resize_image sampleTall (2, 2) [])
      (resize_image sampleTall (2, 2) ["keep-width"]) := by
  have hle : (sampleTall.width : ℚ) / (sampleTall.height : ℚ) ≤
      ((2 : Nat) : ℚ) / ((2 : Nat) : ℚ) := by norm_num [sampleTall]
  have h1 := resize_image_tall sampleTall 2 2 [] hle
  have h2 := resize_image_tall sampleTall 2 2 ["keep-width"] hle
  have e : pyInt ((sampleTall.width : ℚ) / (((2 : Nat) : ℚ) / ((2 : Nat) : ℚ))) = 2 := by
    norm_num [pyInt, sampleTall]
    rfl
  rw [e] at h1 h2
  intro hEqv
  rw [h1, h2] at hEqv
  exact absurd hEqv (by decide)

/-- Claim C3 (amended): on the vertical-crop branch the `keep-width` flag
does affect the result — it selects the vertical anchor of the crop: with
`keep-width` the crop starts at row 0, without it the crop is centred at
row `(imgHeight - newHeight) / 2`, so the two outputs coincide only when
that offset is zero. -/
theorem claim_C3_amended (img : PilImage) (dw dh : Nat)
    (hle : (img.width : ℚ) / (img.height : ℚ) ≤ (dw : ℚ) / (dh : ℚ)) :
    resize_image img (dw, dh) ["keep-width"] =
      pilResize (dw, dh) (pilCrop 0 0 img.width
        (pyInt ((img.width : ℚ) / ((dw : ℚ) / (dh : ℚ)))) img) ∧
    resize_image img (dw, dh) [] =
      pilResize (dw, dh)
        (pilCrop 0 ((img.height - pyInt ((img.width : ℚ) / ((dw : ℚ) / (dh : ℚ)))) / 2)
          img.width
          ((img.height - pyInt ((img.width : ℚ) / ((dw : ℚ) / (dh : ℚ)))) / 2 +
            pyInt ((img.width : ℚ) / ((dw : ℚ) / (dh : ℚ)))) img) := by
  refine ⟨?_, ?_⟩
  · rw [resize_image_tall img dw dh ["keep-width"] hle]
    simp
  · rw [resize_image_tall img dw dh [] hle]
    simp

/-- Claim C3 witness: for the 2×4 source and 2×2 target, the `keep-width`
crop is rows 0–1 and the centred crop is rows 1–2. -/
theorem claim_C3_witness :
    (sampleTall.width : ℚ) / (sampleTall.height : ℚ) ≤
      ((2 : Nat) : ℚ) / ((2 : Nat) : ℚ) ∧
    resize_image sampleTall (2, 2) ["keep-width"] =
      pilResize (2, 2) (pilCrop 0 0 2 2 sampleTall) ∧
    resize_image sampleTall (2, 2) [] =
      pilResize (2, 2) (pilCrop 0 1 2 3 sampleTall) := by
  have hle : (sampleTall.width : ℚ) / (sampleTall.height : ℚ) ≤
      ((2 : Nat) : ℚ) / ((2 : Nat) : ℚ) := by norm_num [sampleTall]
  have h := claim_C3_amended sampleTall 2 2 hle
  refine ⟨hle, ?_, ?_⟩
  · rw [h.1]
    norm_num [pyInt, sampleTall]
    rfl
  · rw [h.2]
    norm_num [pyInt, sampleTall]
    rfl

/-! ## Claim C7 -/

lemma blendChan_one (d i : Nat) : blendChan 1 d i = i := by
  unfold blendChan
  rw [if_pos ⟨zero_le_one, le_refl 1⟩]
  have h : (d : ℚ) + 1 * ((i : ℚ) - (d : ℚ)) = ((i : Nat) : ℚ) := by ring
  rw [h]
  unfold ratTrunc
  rw [if_pos (by positivity)]
  simp

lemma zipWith_blendChan_one :
    ∀ d i : List Nat, d.length = i.length →
      List.zipWith (blendChan 1) d i = i := by
  intro d
  induction d with
  | nil =>
    intro i h
    cases i with
    | nil => rfl
    | cons b i => simp at h
  | cons a d ih =>
    intro i h
    cases i with
    | nil => simp at h
    | cons b i => simp [blendChan_one, ih i (by simpa using h)]

/-- `Image.blend(deg, img, 1.0)` is the identity on images whose pixels
have matching channel counts. -/
lemma pilBlend_one (deg img : PilImage)
    (hlen : ∀ x y, (deg.px x y).length = (img.px x y).length) :
    pilBlend 1 deg img = img := by
  rcases img with ⟨m, w, h, p⟩
  unfold pilBlend
  dsimp only
  congr 1
  funext x y
  exact zipWith_blendChan_one _ _ (hlen x y)

lemma brightnessDegenerate_len (img : PilImage) (hwf : img.Wf) :
    ∀ x y, ((brightnessDegenerate img).px x y).length = (img.px x y).length := by
  intro x y
  simp [brightnessDegenerate, hwf x y]

lemma contrastDegenerate_len (img : PilImage) (hwf : img.Wf)
    (hmode : img.mode = .RGB ∨ img.mode = .L) :
    ∀ x y, ((contrastDegenerate img).px x y).length = (img.px x y).length := by
  intro x y
  rcases img with ⟨m, w, h, p⟩
  rcases hmode with hm | hm <;>
    · simp only at hm
      subst hm
      simp [contrastDegenerate, pilConvert, hwf x y, PilMode.channels]

lemma colorDegenerate_len (img : PilImage) (hwf : img.Wf)
    (hmode : img.mode = .RGB ∨ img.mode = .L) :
    ∀ x y, ((colorDegenerate img).px x y).length = (img.px x y).length := by
  intro x y
  rcases img with ⟨m, w, h, p⟩
  rcases hmode with hm | hm <;>
    · simp only at hm
      subst hm
      simp [colorDegenerate, pilConvert, hwf x y, PilMode.channels]

lemma pixAdd_length (a b : List Nat) :
    (pixAdd a b).length = min a.length b.length := by
  simp [pixAdd]

lemma pixScale_length (k : Nat) (a : List Nat) :
    (pixScale k a).length = a.length := by
  simp [pixScale]

lemma sharpnessDegenerate_len (img : PilImage) (hwf : img.Wf) :
    ∀ x y, ((sharpnessDegenerate img).px x y).length = (img.px x y).length := by
  intro x y
  unfold sharpnessDegenerate pilSmooth
  dsimp only
  split
  · rw [List.length_map]
    have hwfu : ∀ a b, (img.px a b).length = img.mode.channels := hwf
    simp only [pixAdd_length, pixScale_length, hwfu]
    omega
  · rfl

/-- The four-stage enhancement chain at factor 1.0 is the identity on a
well-formed RGB or L image. -/
lemma applyDefault_id (img : PilImage) (hwf : img.Wf)
    (hmode : img.mode = .RGB ∨ img.mode = .L) :
    enhanceSharpness (enhanceColor (enhanceContrast
      (enhanceBrightness img 1) 1) 1) 1 = img := by
  have h1 : enhanceBrightness img 1 = img :=
    pilBlend_one _ _ (brightnessDegenerate_len img hwf)
  rw [h1]
  have h2 : enhanceContrast img 1 = img :=
    pilBlend_one _ _ (contrastDegenerate_len img hwf hmode)
  rw [h2]
  have h3 : enhanceColor img 1 = img :=
    pilBlend_one _ _ (colorDegenerate_len img hwf hmode)
  rw [h3]
  exact pilBlend_one _ _ (sharpnessDegenerate_len img hwf)

/-- Claim C7 counterexample: on an RGBA bitmap the very first step of
`apply_image_enhancement` converts to RGB, dropping the alpha byte, so even
with all four settings absent the output pixel bytes differ from the input
pixel bytes. -/
theorem claim_C7_counterexample :
    (apply_image_enhancement sampleRGBA).tobytes ≠ sampleRGBA.tobytes := by
  have hc : apply_image_enhancement sampleRGBA = pilConvert .RGB sampleRGBA := by
    unfold apply_image_enhancement
    rw [if_neg (by decide)]
    exact applyDefault_id _ (fun _ _ => rfl) (Or.inl rfl)
  rw [hc]
  decide

/-- Claim C7 (amended): on bitmaps already in a 3-channel (RGB) or
grayscale (L) mode, `apply_image_enhancement` with all four settings absent
is the identity on pixel bytes; other modes are first converted to RGB,
which changes the byte layout.  In every case the four adjustments are
applied in the fixed order brightness, contrast, saturation, sharpness. -/
theorem claim_C7_amended (img : PilImage) (s : ImageSettings)
    (hwf : img.Wf) (hmode : img.mode = .RGB ∨ img.mode = .L) :
    (apply_image_enhancement img).tobytes = img.tobytes ∧
    apply_image_enhancement img s =
      enhanceSharpness (enhanceColor (enhanceContrast (enhanceBrightness
        (if img.mode = .RGB ∨ img.mode = .L then img else pilConvert .RGB img)
        (s.brightness.getD 1)) (s.contrast.getD 1)) (s.saturation.getD 1))
        (s.sharpness.getD 1) := by
  constructor
  · have hid : apply_image_enhancement img = img := by
      unfold apply_image_enhancement
      rw [if_pos hmode]
      exact applyDefault_id img hwf hmode
    rw [hid]
  · rfl

/-- Claim C7 witness: the identity holds on a concrete 1×1 RGB bitmap. -/
theorem claim_C7_witness :
    (sampleRGB.mode = PilMode.RGB ∨ sampleRGB.mode = PilMode.L) ∧
    (apply_image_enhancement sampleRGB).tobytes = sampleRGB.tobytes :=
  ⟨Or.inl rfl,
    (claim_C7_amended sampleRGB {} (fun _ _ => rfl) (Or.inl rfl)).1⟩

/-! ## Claim C8 -/

lemma sha256Digest_length (msg : List Nat) : (sha256Digest msg).length = 32 := by
  simp [sha256Digest, be32]

lemma hexPairs_length :
    ∀ l : List Nat, ((l.map hexByte).flatten).length = 2 * l.length := by
  intro l
  induction l with
  | nil => rfl
  | cons a l ih =>
    simp only [List.map_cons, List.flatten_cons, List.length_append, ih,
      hexByte, List.length_cons, List.length_nil, List.length_map]
    omega

lemma hexDigit_mem (n : Nat) : hexDigit n ∈ hexChars := by
  unfold hexDigit
  rcases Nat.lt_or_ge n 16 with h | h
  · interval_cases n <;> decide
  · rw [List.getD_eq_default]
    · decide
    · have hlen : hexChars.length = 16 := rfl
      omega

/-- Claim C8: `compute_image_hash` returns a 64-character string of
lowercase hexadecimal digits, and it is a function of the pixel bytes of
the RGB-normalised bitmap: two bitmaps with identical pixel content after
conversion to RGB (whatever their alpha or grayscale encoding) receive the
identical fingerprint. -/
theorem claim_C8 (i1 i2 : PilImage) :
    (compute_image_hash i1).length = 64 ∧
    (∀ c ∈ compute_image_hash i1, c ∈ hexChars) ∧
    ((pilConvert .RGB i1).tobytes = (pilConvert .RGB i2).tobytes →
      compute_image_hash i1 = compute_image_hash i2) := by
  refine ⟨?_, ?_, ?_⟩
  · unfold compute_image_hash sha256Hexdigest
    rw [hexPairs_length, sha256Digest_length]
  · intro c hc
    unfold compute_image_hash sha256Hexdigest at hc
    simp only [List.mem_flatten, List.mem_map] at hc
    obtain ⟨l, ⟨b, hb, rfl⟩, hcl⟩ := hc
    simp only [hexByte, List.mem_cons, List.not_mem_nil, or_false] at hcl
    rcases hcl with rfl | rfl
    · exact hexDigit_mem _
    · exact hexDigit_mem _
  · intro h
    unfold compute_image_hash
    rw [h]

/-- Claim C8 witness: an RGBA bitmap and an RGB bitmap with the same colour
channels normalise to the same RGB bytes and receive the same fingerprint. -/
theorem claim_C8_witness :
    (pilConvert .RGB sampleRGBA).tobytes = (pilConvert .RGB sampleRGB).tobytes ∧
    compute_image_hash sampleRGBA = compute_image_hash sampleRGB :=
  ⟨by decide, (claim_C8 sampleRGBA sampleRGB).2.2 (by decide)⟩
